import Mathlib

/-!
Verification of the V3 surveillance-scheduling optimizer
(`backend/algorithms/optimizer_v3.py`) against its natural-language
specification.  The Python source is shallowly embedded: each constraint
builder becomes a Lean function that returns the list of constraints it
emits, and satisfaction predicates give those constraints their CP-SAT
semantics over an assignment `x : SeanceKey → Nat → Bool` (one boolean per
(session, teacher) pair, exactly as the Python model builds them).
-/

namespace SurvV3

/-- A teacher row that passed the `participe_surveillance == True` filter
(an *eligible* teacher).  `code_smartex` is the external code used to match
wishes and exam responsibles; it is nullable in the schema. -/
structure Enseignant where
  id : Nat
  grade_code : String
  code_smartex : Option String
deriving DecidableEq, Repr, Inhabited

/-- A session key as built by `_grouper_examens_par_seance`:
(date, slot code, semester, session type, 1-based day index).
Dates are day ordinals. -/
structure SeanceKey where
  dateExam : Nat
  seance_code : String
  semestre : String
  session : String
  jour_index : Nat
deriving DecidableEq, Repr, Inhabited

/-- An exam row (the fields the scheduler reads).  `h_debut` is the start
time as (hour, minute); `enseignant` holds the responsible teacher's
external code, when present. -/
structure Examen where
  id : Nat
  dateExam : Nat
  h_debut : Nat × Nat
  semestre : String
  session : String
  enseignant : Option String
deriving DecidableEq, Repr, Inhabited

/-- `_get_seance_code_from_time`: derive the slot code S1..S4 from the exam
start time, with the before-noon/after-noon fallback outside the four
ranges.  Minute thresholds are the source's literals (510 = 08:30, 630 =
10:30, 750 = 12:30, 870 = 14:30, 1020 = 17:00). -/
def getSeanceCodeFromTime (hour minute : Nat) : String :=
  if 510 ≤ hour * 60 + minute ∧ hour * 60 + minute < 630 then "S1"
  else if 630 ≤ hour * 60 + minute ∧ hour * 60 + minute < 750 then "S2"
  else if 750 ≤ hour * 60 + minute ∧ hour * 60 + minute < 870 then "S3"
  else if 870 ≤ hour * 60 + minute ∧ hour * 60 + minute < 1020 then "S4"
  else if hour < 12 then "S1" else "S3"

/-- First-occurrence deduplication, the key order of a Python dict built by
insertion (used for grade groups and day groups). -/
def firstDedup {α : Type} [DecidableEq α] (l : List α) : List α :=
  l.foldl (fun acc a => if a ∈ acc then acc else acc ++ [a]) []

/-- The grade codes present among the eligible teachers, in first-occurrence
order (the iteration order of `enseignants_par_grade`). -/
def gradesList (ens : List Enseignant) : List String :=
  firstDedup (ens.map (fun e => e.grade_code))

/-- Quota lookup with the source's default:
`grade_configs.get(grade_code, {"nb_surveillances": 2})`. -/
def quotaOf (configs : List (String × Nat)) (g : String) : Nat :=
  match configs.find? (fun p => p.1 == g) with
  | some p => p.2
  | none => 2

/-- `quotas_totaux` in `_contrainte_nombre_minimal`: total quota capacity,
summed grade by grade (member count times the grade's fixed quota). -/
def quotasTotaux (configs : List (String × Nat)) (ens : List Enseignant) : Nat :=
  ((gradesList ens).map (fun g =>
    (ens.filter (fun e => e.grade_code == g)).length * quotaOf configs g)).sum

/-- `besoin_ideal`: total number of exams times the per-exam minimum `m`. -/
def besoinIdeal (seances : List (SeanceKey × Nat)) (m : Nat) : Nat :=
  ((seances.map (fun p => p.2)).sum) * m

/-- `mode_adaptatif = allow_fallback and (quotas_totaux < besoin_ideal)`.
Sessions are carried as (key, number of member exams). -/
def modeAdaptatif (configs : List (String × Nat)) (ens : List Enseignant)
    (seances : List (SeanceKey × Nat)) (m : Nat) (allow_fallback : Bool) : Bool :=
  allow_fallback && decide (quotasTotaux configs ens < besoinIdeal seances m)

/-- `besoins_par_seance`: every session key is mapped to its ideal need
`nb_examens * m` (stored before any branching). -/
def besoinsParSeance (seances : List (SeanceKey × Nat)) (m : Nat) :
    List (SeanceKey × Nat) :=
  seances.map (fun p => (p.1, p.2 * m))

/-- A per-session coverage constraint as emitted into the CP-SAT model:
a lower bound, an upper bound, or an exact value for
`cover(s) = Σ_t x[s,t]`. -/
inductive CoverageCon
  | atLeast (k : SeanceKey) (b : Nat)
  | atMost (k : SeanceKey) (b : Nat)
  | exactly (k : SeanceKey) (b : Nat)
deriving DecidableEq, Repr

/-- The session key a coverage constraint talks about. -/
def conKey : CoverageCon → SeanceKey
  | CoverageCon.atLeast k _ => k
  | CoverageCon.atMost k _ => k
  | CoverageCon.exactly k _ => k

/-- The per-session branch of `_contrainte_nombre_minimal`: starvation
(`nb_requis_minimal > len(enseignants)`) emits only
`sum ≥ len(enseignants)`; adaptive mode emits `sum ≥ nb_examens` and
`sum ≤ nb_examens * m`; normal mode emits `sum == nb_examens * m`. -/
def contrainteSeance (ensLen : Nat) (adaptatif : Bool) (m : Nat)
    (p : SeanceKey × Nat) : List CoverageCon :=
  if ensLen < p.2 then [CoverageCon.atLeast p.1 ensLen]
  else if adaptatif then
    [CoverageCon.atLeast p.1 p.2, CoverageCon.atMost p.1 (p.2 * m)]
  else [CoverageCon.exactly p.1 (p.2 * m)]

/-- `_contrainte_nombre_minimal`: the full list of coverage constraints,
one branch per session, with the adaptive flag computed once globally. -/
def contrainteNombreMinimal (configs : List (String × Nat))
    (ens : List Enseignant) (seances : List (SeanceKey × Nat)) (m : Nat)
    (allow_fallback : Bool) : List CoverageCon :=
  seances.flatMap
    (contrainteSeance ens.length (modeAdaptatif configs ens seances m allow_fallback) m)

/-- `cover(s)`: number of eligible teachers assigned to session `k` by the
boolean assignment `x`. -/
def coverOf (ens : List Enseignant) (x : SeanceKey → Nat → Bool)
    (k : SeanceKey) : Nat :=
  (ens.map (fun e => if x k e.id then 1 else 0)).sum

/-- `load(t)`: number of sessions teacher `tid` is assigned to. -/
def chargeOf (x : SeanceKey → Nat → Bool) (keys : List SeanceKey)
    (tid : Nat) : Nat :=
  (keys.map (fun k => if x k tid then 1 else 0)).sum

/-- CP-SAT semantics of one coverage constraint. -/
def coverageHolds (ens : List Enseignant) (x : SeanceKey → Nat → Bool) :
    CoverageCon → Prop
  | CoverageCon.atLeast k b => b ≤ coverOf ens x k
  | CoverageCon.atMost k b => coverOf ens x k ≤ b
  | CoverageCon.exactly k b => coverOf ens x k = b

instance (ens : List Enseignant) (x : SeanceKey → Nat → Bool) :
    DecidablePred (coverageHolds ens x) := fun c =>
  match c with
  | CoverageCon.atLeast k b => inferInstanceAs (Decidable (b ≤ coverOf ens x k))
  | CoverageCon.atMost k b => inferInstanceAs (Decidable (coverOf ens x k ≤ b))
  | CoverageCon.exactly k b => inferInstanceAs (Decidable (coverOf ens x k = b))

/-- An assignment satisfies a list of coverage constraints. -/
def satisfCoverage (ens : List Enseignant) (cons : List CoverageCon)
    (x : SeanceKey → Nat → Bool) : Prop :=
  ∀ c ∈ cons, coverageHolds ens x c

instance (ens : List Enseignant) (cons : List CoverageCon)
    (x : SeanceKey → Nat → Bool) : Decidable (satisfCoverage ens cons x) :=
  inferInstanceAs (Decidable (∀ c ∈ cons, coverageHolds ens x c))

/-! ### Quotas and intra-grade balance (`_contrainte_quotas_grades`) -/

/-- The per-teacher hard caps emitted by `_contrainte_quotas_grades`: for
each grade group, for each member, `charge <= quota_fixe`.  The auxiliary
min/max/dispersion variables added for grades with two or more members
constrain only those auxiliary variables (they are defined as equalities),
so the hard content on `x` is exactly this cap list. -/
def quotasCaps (configs : List (String × Nat)) (ens : List Enseignant) :
    List (Nat × Nat) :=
  (gradesList ens).flatMap (fun g =>
    (ens.filter (fun e => e.grade_code == g)).map
      (fun e => (e.id, quotaOf configs g)))

/-- An assignment satisfies the emitted per-teacher caps. -/
def satisfQuotasCaps (caps : List (Nat × Nat)) (keys : List SeanceKey)
    (x : SeanceKey → Nat → Bool) : Prop :=
  ∀ c ∈ caps, chargeOf x keys c.1 ≤ c.2

instance (caps : List (Nat × Nat)) (keys : List SeanceKey)
    (x : SeanceKey → Nat → Bool) : Decidable (satisfQuotasCaps caps keys x) :=
  inferInstanceAs (Decidable (∀ c ∈ caps, chargeOf x keys c.1 ≤ c.2))

/-- The grades for which `_contrainte_quotas_grades` creates a dispersion
variable (`len(charges) > 1`), i.e. grades with at least two eligible
teachers, in first-occurrence order. -/
def dispersionGradesList (ens : List Enseignant) : List String :=
  (gradesList ens).filter
    (fun g => 2 ≤ (ens.filter (fun e => e.grade_code == g)).length)

/-- Minimum of a list as CP-SAT's `AddMinEquality` computes it over the
(nonempty) charge list of a grade. -/
def listMin : List Nat → Nat
  | [] => 0
  | a :: t => t.foldl Nat.min a

/-- Maximum of a list of naturals (0 on the empty list). -/
def listMax (l : List Nat) : Nat := l.foldl Nat.max 0

/-- The loads of the teachers of grade `g` under assignment `x`. -/
def gradeCharges (ens : List Enseignant) (keys : List SeanceKey)
    (x : SeanceKey → Nat → Bool) (g : String) : List Nat :=
  (ens.filter (fun e => e.grade_code == g)).map (fun e => chargeOf x keys e.id)

/-- The value of the dispersion variable of grade `g`
(`charge_max_grade - charge_min_grade`). -/
def gradeDispersion (ens : List Enseignant) (keys : List SeanceKey)
    (x : SeanceKey → Nat → Bool) (g : String) : Nat :=
  listMax (gradeCharges ens keys x g) - listMin (gradeCharges ens keys x g)

/-! ### Wishes (`_contrainte_voeux`) -/

/-- One entry of `list_voeux` as produced by `_trier_et_afficher_voeux`:
the attributes the wish filter reads ("id" = teacher external code,
"date_voeu", "seance"). -/
structure VoeuDict where
  id : Option String
  date_voeu : Option Nat
  seance : Option String
deriving DecidableEq, Repr

/-- `code_to_id = {ens.code_smartex: ens.id for ens in enseignants if
ens.code_smartex}`; an empty code is falsy in Python and is skipped. -/
def codeToId (ens : List Enseignant) : List (String × Nat) :=
  ens.filterMap (fun e =>
    match e.code_smartex with
    | some c => if c ≠ "" then some (c, e.id) else none
    | none => none)

/-- Python-dict lookup on an association list built by insertion: the last
binding of a key wins. -/
def lookupCode (m : List (String × Nat)) (c : String) : Option Nat :=
  (m.reverse.find? (fun p => p.1 == c)).map (fun p => p.2)

/-- Python's `str.upper` on one character (the slot codes involved are
ASCII). -/
def charUpper (c : Char) : Char :=
  if 97 ≤ c.toNat ∧ c.toNat ≤ 122 then Char.ofNat (c.toNat - 32) else c

/-- Whitespace for Python's `str.strip`. -/
def isSpaceChar (c : Char) : Bool :=
  c == ' ' || c == '\t' || c == '\n' || c == '\r'

/-- Strip leading and trailing whitespace from a character list. -/
def trimList (l : List Char) : List Char :=
  ((l.dropWhile isSpaceChar).reverse.dropWhile isSpaceChar).reverse

/-- `str(seance_val).upper().strip()`. -/
def normSeance (s : String) : String := ⟨trimList (s.data.map charUpper)⟩

/-- `voeux_set`: the tuples (teacher id, wish date, normalized slot code) of
the wishes that survive validation (nonempty code known among the eligible
teachers, date present, nonempty slot).  Python stores them in a set; a
list gives the same membership semantics. -/
def voeuxSet (ens : List Enseignant) (voeux : List VoeuDict) :
    List (Nat × Nat × String) :=
  voeux.filterMap (fun v =>
    match v.id, v.date_voeu, v.seance with
    | some c, some d, some s =>
        if c ≠ "" ∧ s ≠ "" then
          match lookupCode (codeToId ens) c with
          | some tid => some (tid, d, normSeance s)
          | none => none
        else none
    | _, _, _ => none)

/-- The `avec_voeu` output of `_contrainte_voeux`: the (session, teacher)
pairs whose (teacher id, session date, normalized slot) is in `voeux_set`,
walking sessions then teachers. -/
def avecVoeuPairs (seanceKeys : List SeanceKey) (ens : List Enseignant)
    (vs : List (Nat × Nat × String)) : List (SeanceKey × Nat) :=
  seanceKeys.flatMap (fun k =>
    ens.filterMap (fun e =>
      if (e.id, k.dateExam, normSeance k.seance_code) ∈ vs then
        some (k, e.id)
      else none))

/-- `_contrainte_voeux` end to end (the `avec_voeu` list it returns). -/
def contrainteVoeuxAvec (voeux : List VoeuDict) (seanceKeys : List SeanceKey)
    (ens : List Enseignant) : List (SeanceKey × Nat) :=
  avecVoeuPairs seanceKeys ens (voeuxSet ens voeux)

/-! ### Objective (`_configurer_fonction_objectif`) -/

/-- The components a run's objective can contain. -/
inductive ObjComp
  | totalAff
  | dispGlobal
  | dispGrades
  | bonusRegroup
  | bonusVoeux
deriving DecidableEq, Repr

/-- The `composantes`/`poids` lists built by `_configurer_fonction_objectif`,
in source order, as (component, weight) pairs.  The solver maximizes the
weighted sum. -/
def objectifTermes (hasCharges hasDispGrades hasBonusConsec hasVoeux : Bool)
    (activer_regroupement : Bool) : List (ObjComp × Int) :=
  (if hasCharges then
    [(ObjComp.totalAff, if activer_regroupement then (35 : Int) else 40)]
   else []) ++
  (if hasCharges then
    [(ObjComp.dispGlobal, if activer_regroupement then (-25 : Int) else -30)]
   else []) ++
  (if hasDispGrades then [(ObjComp.dispGrades, (-20 : Int))] else []) ++
  (if activer_regroupement && hasBonusConsec then
    [(ObjComp.bonusRegroup, (10 : Int))]
   else []) ++
  (if hasVoeux then [(ObjComp.bonusVoeux, (10 : Int))] else [])

/-- The objective terms of a run: `charges` is nonempty iff there are
eligible teachers; `dispersions_par_grade` is nonempty iff some grade has
two or more eligible teachers; `bonus_consecutivite` exists iff grouping is
enabled and there is at least one teacher and one day; `bonus_voeux` exists
iff `avec_voeu` is nonempty.  Note this does not depend on the
normal/adaptive mode: `_configurer_fonction_objectif` never sees it. -/
def objectifDuRun (ens : List Enseignant) (keys : List SeanceKey)
    (avecVoeu : List (SeanceKey × Nat)) (activer_regroupement : Bool) :
    List (ObjComp × Int) :=
  objectifTermes (!ens.isEmpty) (!(dispersionGradesList ens).isEmpty)
    (!ens.isEmpty && !keys.isEmpty) (!avecVoeu.isEmpty) activer_regroupement

/-- The day indices present in the batch, in first-occurrence order. -/
def joursOf (keys : List SeanceKey) : List Nat :=
  firstDedup (keys.map (fun k => k.jour_index))

/-- Number of sessions of day `j` that teacher `tid` is assigned to. -/
def nbSeancesJour (keys : List SeanceKey) (x : SeanceKey → Nat → Bool)
    (tid j : Nat) : Nat :=
  ((keys.filter (fun k => k.jour_index == j)).map
    (fun k => if x k tid then 1 else 0)).sum

/-- Per-(teacher, day) contribution of `_contrainte_seances_consecutives`:
0 sessions → 0, an isolated session → −2, k ≥ 2 grouped sessions → +k.
The half-reified indicator variables of the source are uniquely determined
by `x`, so this is their forced value. -/
def contribRegroupement (k : Nat) : Int :=
  if k = 0 then 0 else if k = 1 then -2 else (k : Int)

/-- The regrouping score `score_regroupement` summed over teachers × days. -/
def scoreRegroupement (keys : List SeanceKey) (ens : List Enseignant)
    (x : SeanceKey → Nat → Bool) : Int :=
  (ens.flatMap (fun e =>
    (joursOf keys).map
      (fun j => contribRegroupement (nbSeancesJour keys x e.id j)))).sum

/-- The value each objective component takes under assignment `x`. -/
def compValeur (ens : List Enseignant) (keys : List SeanceKey)
    (avecVoeu : List (SeanceKey × Nat)) (x : SeanceKey → Nat → Bool) :
    ObjComp → Int
  | ObjComp.totalAff => ((ens.map (fun e => chargeOf x keys e.id)).sum : Nat)
  | ObjComp.dispGlobal =>
      ((listMax (ens.map (fun e => chargeOf x keys e.id)) -
        listMin (ens.map (fun e => chargeOf x keys e.id)) : Nat) : Int)
  | ObjComp.dispGrades =>
      (((dispersionGradesList ens).map
        (fun g => gradeDispersion ens keys x g)).sum : Nat)
  | ObjComp.bonusRegroup => scoreRegroupement keys ens x
  | ObjComp.bonusVoeux =>
      ((avecVoeu.map (fun p => if x p.1 p.2 then (1 : Nat) else 0)).sum : Nat)

/-- The maximized objective value of a run under assignment `x`. -/
def objectifValeur (ens : List Enseignant) (keys : List SeanceKey)
    (avecVoeu : List (SeanceKey × Nat)) (activer_regroupement : Bool)
    (x : SeanceKey → Nat → Bool) : Int :=
  ((objectifDuRun ens keys avecVoeu activer_regroupement).map
    (fun t => t.2 * compValeur ens keys avecVoeu x t.1)).sum

/-! ### Inter-session balance (`_contrainte_equilibre_entre_seances`) -/

/-- Dict lookup in `besoins_par_seance` (first binding; the dict has unique
keys). -/
def lookupSeance (m : List (SeanceKey × Nat)) (k : SeanceKey) : Option Nat :=
  (m.find? (fun p => p.1 == k)).map (fun p => p.2)

/-- `mode_adaptatif_global` as detected inside
`_contrainte_equilibre_entre_seances`:
`besoin_reel != besoin_ideal or nb_examens < besoin_ideal` for some
session, where `besoin_ideal = nb_examens * m`. -/
def modeAdaptatifGlobal (seances : List (SeanceKey × Nat))
    (besoins : List (SeanceKey × Nat)) (m : Nat) : Bool :=
  seances.any (fun p =>
    ((lookupSeance besoins p.1).getD (p.2 * m) != p.2 * m) ||
      decide (p.2 < p.2 * m))

/-- The tolerance chosen for a size-`n` group:
adaptive `max(int(n*(m-1)*0.5), n, 5)`, else `max(2, int(n*0.05))`.
`int(n*(m-1)*0.5)` is exactly `n*(m-1)/2` (an integer times 0.5 is exact
and truncation of a nonnegative value is the floor), and `int(n*0.05)`
equals `n/20` for every session size the scheduler can see. -/
def toleranceEquilibre (adaptatif : Bool) (n m : Nat) : Nat :=
  if adaptatif then max (max (n * (m - 1) / 2) n) 5
  else max 2 (n / 20)

/-- One emitted balance constraint: `|cover(k1) - cover(k2)| ≤ tol`,
emitted as the two directed differences. -/
structure BalanceCon where
  k1 : SeanceKey
  k2 : SeanceKey
  tol : Nat
deriving DecidableEq, Repr

/-- The distinct session sizes, in first-occurrence order (the iteration
order of `seances_par_taille`). -/
def taillesSeances (seances : List (SeanceKey × Nat)) : List Nat :=
  firstDedup (seances.map (fun p => p.2))

/-- The ordered pairs (i, j) with i before j of a list, as the source's
double loop enumerates them. -/
def pairesDe {α : Type} : List α → List (α × α)
  | [] => []
  | a :: t => (t.map (fun b => (a, b))) ++ pairesDe t

/-- `_contrainte_equilibre_entre_seances`: group sessions by exam count,
skip singleton groups, pick the tolerance from the globally detected mode,
and emit one constraint per pair of the group. -/
def contrainteEquilibre (seances besoins : List (SeanceKey × Nat)) (m : Nat) :
    List BalanceCon :=
  (taillesSeances seances).flatMap (fun n =>
    let groupe := (seances.filter (fun p => p.2 == n)).map (fun p => p.1)
    if groupe.length ≤ 1 then []
    else
      (pairesDe groupe).map (fun q =>
        ⟨q.1, q.2, toleranceEquilibre (modeAdaptatifGlobal seances besoins m) n m⟩))

/-- CP-SAT semantics of one balance constraint. -/
def balanceHolds (ens : List Enseignant) (x : SeanceKey → Nat → Bool)
    (c : BalanceCon) : Prop :=
  (coverOf ens x c.k1 : Int) - coverOf ens x c.k2 ≤ c.tol ∧
  (coverOf ens x c.k2 : Int) - coverOf ens x c.k1 ≤ c.tol

instance (ens : List Enseignant) (x : SeanceKey → Nat → Bool)
    (c : BalanceCon) : Decidable (balanceHolds ens x c) :=
  inferInstanceAs (Decidable (_ ∧ _))

/-- An assignment satisfies a list of balance constraints. -/
def satisfBalance (ens : List Enseignant) (cons : List BalanceCon)
    (x : SeanceKey → Nat → Bool) : Prop :=
  ∀ c ∈ cons, balanceHolds ens x c

instance (ens : List Enseignant) (cons : List BalanceCon)
    (x : SeanceKey → Nat → Bool) : Decidable (satisfBalance ens cons x) :=
  inferInstanceAs (Decidable (∀ c ∈ cons, balanceHolds ens x c))

/-! ### First+last isolation (`_contrainte_interdire_premiere_derniere_isolees`) -/

/-- The sessions of day `j` sorted by slot code, as
`sorted(seances_jour, key=lambda x: x[1])` does (a stable sort on the
code string). -/
def triJour (keys : List SeanceKey) (j : Nat) : List SeanceKey :=
  (keys.filter (fun k => k.jour_index == j)).mergeSort
    (fun a b => decide (a.seance_code ≤ b.seance_code))

/-- One emitted anti-isolation constraint for a (day, teacher):
`x[first] + x[last] ≤ 1 + Σ x[intermediate]`. -/
structure IsoCon where
  premiere : SeanceKey
  derniere : SeanceKey
  intermediaires : List SeanceKey
  ens_id : Nat
deriving DecidableEq, Repr

/-- `_contrainte_interdire_premiere_derniere_isolees`: for each day with at
least 3 sessions, for each eligible teacher, one constraint built from the
slot-sorted session list (first, last, and the in-between sessions). -/
def contrainteIsolees (keys : List SeanceKey) (ens : List Enseignant) :
    List IsoCon :=
  (joursOf keys).flatMap (fun j =>
    if (keys.filter (fun k => k.jour_index == j)).length < 3 then []
    else
      ens.map (fun e =>
        ⟨(triJour keys j).headD default, (triJour keys j).getLastD default,
          ((triJour keys j).drop 1).dropLast, e.id⟩))

/-- CP-SAT semantics of one anti-isolation constraint. -/
def isoHolds (x : SeanceKey → Nat → Bool) (c : IsoCon) : Prop :=
  (if x c.premiere c.ens_id then 1 else 0) +
      (if x c.derniere c.ens_id then 1 else 0) ≤
    1 + (c.intermediaires.map (fun k => if x k c.ens_id then (1 : Nat) else 0)).sum

instance (x : SeanceKey → Nat → Bool) (c : IsoCon) : Decidable (isoHolds x c) :=
  inferInstanceAs (Decidable (_ ≤ _))

/-- An assignment satisfies a list of anti-isolation constraints. -/
def satisfIso (cons : List IsoCon) (x : SeanceKey → Nat → Bool) : Prop :=
  ∀ c ∈ cons, isoHolds x c

instance (cons : List IsoCon) (x : SeanceKey → Nat → Bool) :
    Decidable (satisfIso cons x) :=
  inferInstanceAs (Decidable (∀ c ∈ cons, isoHolds x c))

/-! ### Responsible presence (`_contrainte_responsables`) -/

/-- Dict lookup in `responsables_examens` (exam id → teacher id). -/
def lookupNat (m : List (Nat × Nat)) (i : Nat) : Option Nat :=
  (m.find? (fun p => p.1 == i)).map (fun p => p.2)

/-- `_contrainte_responsables`: for each exam of each session whose
responsible resolves to an eligible teacher, force `x[session, t] = 1`
(the variable always exists for eligible teachers). -/
def contrainteResponsables (seances : List (SeanceKey × List Examen))
    (ens : List Enseignant) (respMap : List (Nat × Nat)) :
    List (SeanceKey × Nat) :=
  seances.flatMap (fun p =>
    p.2.filterMap (fun ex =>
      match lookupNat respMap ex.id with
      | some rid =>
          if ens.any (fun e => e.id == rid) then some (p.1, rid) else none
      | none => none))

/-- An assignment satisfies the forced responsible variables. -/
def satisfResp (cons : List (SeanceKey × Nat))
    (x : SeanceKey → Nat → Bool) : Prop :=
  ∀ c ∈ cons, x c.1 c.2 = true

instance (cons : List (SeanceKey × Nat)) (x : SeanceKey → Nat → Bool) :
    Decidable (satisfResp cons x) :=
  inferInstanceAs (Decidable (∀ c ∈ cons, x c.1 c.2 = true))

/-- Exam counts of the grouped sessions. -/
def seanceCounts (seances : List (SeanceKey × List Examen)) :
    List (SeanceKey × Nat) :=
  seances.map (fun p => (p.1, p.2.length))

/-- The conjunction of every hard constraint family the V3 model emits
(responsibles, coverage, quota caps, inter-session balance,
anti-isolation): what any Optimal/Feasible CP-SAT solution satisfies. -/
def satisfModele (configs : List (String × Nat)) (ens : List Enseignant)
    (seances : List (SeanceKey × List Examen)) (m : Nat) (fb : Bool)
    (respMap : List (Nat × Nat)) (x : SeanceKey → Nat → Bool) : Prop :=
  satisfResp (contrainteResponsables seances ens respMap) x ∧
  satisfCoverage ens
    (contrainteNombreMinimal configs ens (seanceCounts seances) m fb) x ∧
  satisfQuotasCaps (quotasCaps configs ens) (seances.map (fun p => p.1)) x ∧
  satisfBalance ens
    (contrainteEquilibre (seanceCounts seances)
      (besoinsParSeance (seanceCounts seances) m) m) x ∧
  satisfIso (contrainteIsolees (seances.map (fun p => p.1)) ens) x

instance (configs : List (String × Nat)) (ens : List Enseignant)
    (seances : List (SeanceKey × List Examen)) (m : Nat) (fb : Bool)
    (respMap : List (Nat × Nat)) (x : SeanceKey → Nat → Bool) :
    Decidable (satisfModele configs ens seances m fb respMap x) := by
  unfold satisfModele
  infer_instance

/-! ### Session grouping and the run driver (`generer_planning_optimise`) -/

/-- The raw grouping key of an exam:
(date, derived slot code, semester, session type). -/
def cleBrute (e : Examen) : Nat × String × String × String :=
  (e.dateExam, getSeanceCodeFromTime e.h_debut.1 e.h_debut.2, e.semestre,
    e.session)

/-- The distinct raw keys in exam order (Python dict insertion order). -/
def clesBrutes (examens : List Examen) : List (Nat × String × String × String) :=
  firstDedup (examens.map cleBrute)

/-- `seance_order.get(seance_code, 99)`: the numeric sort index of a slot
code. -/
def seanceOrderIdx (code : String) : Nat :=
  if code == "S1" then 1 else if code == "S2" then 2
  else if code == "S3" then 3 else if code == "S4" then 4 else 99

/-- The sort key comparison of `_grouper_examens_par_seance`: lexicographic
on (date, slot index, semester, session type), as Python tuple comparison
orders the sort keys. -/
def cleLe (a b : Nat × String × String × String) : Bool :=
  if a.1 ≠ b.1 then decide (a.1 < b.1)
  else if seanceOrderIdx a.2.1 ≠ seanceOrderIdx b.2.1 then
    decide (seanceOrderIdx a.2.1 < seanceOrderIdx b.2.1)
  else if a.2.2.1 ≠ b.2.2.1 then decide (a.2.2.1 < b.2.2.1)
  else decide (a.2.2.2 ≤ b.2.2.2)

/-- The raw keys sorted by (date, slot index, semester, session type). -/
def clesTriees (examens : List Examen) : List (Nat × String × String × String) :=
  (clesBrutes examens).mergeSort cleLe

/-- The distinct dates of the sorted keys, in encounter order. -/
def datesUniques (cles : List (Nat × String × String × String)) : List Nat :=
  firstDedup (cles.map (fun c => c.1))

/-- 1-based day index of a date (`date_to_jour_index`). -/
def jourIndexOf (dates : List Nat) (d : Nat) : Nat := dates.indexOf d + 1

/-- `_grouper_examens_par_seance`: partition exams by raw key, sort the
keys, then extend each key with the day index of its date; each session
carries its member exams in input order. -/
def grouperExamensParSeance (examens : List Examen) :
    List (SeanceKey × List Examen) :=
  (clesTriees examens).map (fun c =>
    (⟨c.1, c.2.1, c.2.2.1, c.2.2.2,
        jourIndexOf (datesUniques (clesTriees examens)) c.1⟩,
      examens.filter (fun e => cleBrute e == c)))

/-- The CP-SAT outcome statuses the driver distinguishes. -/
inductive SolverStatus
  | optimal
  | feasible
  | infeasible
  | modelInvalid
  | unknownStatus
deriving DecidableEq, Repr

/-- A stored assignment row (exam, teacher, responsible flag). -/
structure Affectation where
  examen_id : Nat
  enseignant_id : Nat
  est_responsable : Bool
deriving DecidableEq, Repr

/-- The assignment store (`Affectation` table) the run mutates. -/
structure DBState where
  affectations : List Affectation
deriving DecidableEq, Repr

/-- The externally visible steps of a run, in order. -/
inductive RunEvent
  | suppressionCommit
  | contraintesConstruites
  | resolutionSolveur
  | sauvegardeCommit
deriving DecidableEq, Repr

/-- `_sauvegarder_affectations_par_seance`: for each session, the chosen
teachers are duplicated over its exams; the responsible of each exam is
flagged. -/
def sauvegardeAffectations (seances : List (SeanceKey × List Examen))
    (ens : List Enseignant) (respMap : List (Nat × Nat))
    (x : SeanceKey → Nat → Bool) : List Affectation :=
  seances.flatMap (fun p =>
    p.2.flatMap (fun ex =>
      (ens.filter (fun e => x p.1 e.id)).map (fun e =>
        ⟨ex.id, e.id,
          match lookupNat respMap ex.id with
          | some rid => e.id == rid
          | none => false⟩)))

/-- `generer_planning_optimise` as a state machine over the assignment
store: empty-input checks return failure untouched; then ALL existing
assignments are deleted and the deletion committed (Phase 2); sessions are
grouped (Phase 3); the model is built and solved — the solver outcome
`statut` and the solution read-back `x` are inputs, the solver being
external; OPTIMAL/FEASIBLE saves new assignments, anything else returns
failure with the store still empty.  The event trace records the order. -/
def genererPlanning (ens : List Enseignant) (examens : List Examen)
    (statut : SolverStatus) (respMap : List (Nat × Nat))
    (x : SeanceKey → Nat → Bool) (db : DBState) :
    Bool × DBState × List RunEvent :=
  if ens.isEmpty then (false, db, [])
  else if examens.isEmpty then (false, db, [])
  else if (grouperExamensParSeance examens).isEmpty then
    (false, ⟨[]⟩, [RunEvent.suppressionCommit])
  else if statut = SolverStatus.optimal ∨ statut = SolverStatus.feasible then
    (true,
      ⟨sauvegardeAffectations (grouperExamensParSeance examens) ens respMap x⟩,
      [RunEvent.suppressionCommit, RunEvent.contraintesConstruites,
        RunEvent.resolutionSolveur, RunEvent.sauvegardeCommit])
  else
    (false, ⟨[]⟩,
      [RunEvent.suppressionCommit, RunEvent.contraintesConstruites,
        RunEvent.resolutionSolveur])

/-! ### Spec-side definitions and shared concrete inputs -/

/-- The proportional per-exam floor the spec claims for adaptive mode:
`m_floor = max(1, ⌊(Q/D)·m⌋)`, the real floor realized as natural division
`(Q*m)/D`.  This definition follows the spec's words, for comparison with
what `_contrainte_nombre_minimal` actually emits. -/
def mFloorSpec (Q D m : Nat) : Nat := max 1 (Q * m / D)

/-- A single grade `G` with fixed quota 2. -/
def gradeG2 : List (String × Nat) := [("G", 2)]

/-- Two eligible teachers of grade `G`. -/
def ensDeux : List Enseignant := [⟨1, "G", none⟩, ⟨2, "G", none⟩]

/-- One eligible teacher of grade `G` with external code "A". -/
def ensUn : List Enseignant := [⟨1, "G", some "A"⟩]

def cle1 : SeanceKey := ⟨10, "S1", "SEM1", "P", 1⟩

def cle2 : SeanceKey := ⟨10, "S2", "SEM1", "P", 1⟩

def cle3 : SeanceKey := ⟨10, "S3", "SEM1", "P", 1⟩

/-- A single-exam batch: one exam at 09:00 on day 10. -/
def seancesUnExamen : List (SeanceKey × List Examen) :=
  [(cle1, [⟨1, 10, (9, 0), "SEM1", "P", none⟩])]

/-- One wish: teacher with code "A" marked (day 10, S1). -/
def voeuxA : List VoeuDict := [⟨some "A", some 10, some "S1"⟩]

end SurvV3

namespace SurvV3

/-- C7: for every exam start time, the derived slot code is S1 on
[08:30,10:30), S2 on [10:30,12:30), S3 on [12:30,14:30), S4 on
[14:30,17:00); any time outside these ranges falls back to S1 when the
hour is before noon and to S3 otherwise. -/
theorem c7_slot_code_partition (h mi : Nat) (hh : h < 24) (hm : mi < 60) :
    (8 * 60 + 30 ≤ h * 60 + mi ∧ h * 60 + mi < 10 * 60 + 30 →
      getSeanceCodeFromTime h mi = "S1") ∧
    (10 * 60 + 30 ≤ h * 60 + mi ∧ h * 60 + mi < 12 * 60 + 30 →
      getSeanceCodeFromTime h mi = "S2") ∧
    (12 * 60 + 30 ≤ h * 60 + mi ∧ h * 60 + mi < 14 * 60 + 30 →
      getSeanceCodeFromTime h mi = "S3") ∧
    (14 * 60 + 30 ≤ h * 60 + mi ∧ h * 60 + mi < 17 * 60 →
      getSeanceCodeFromTime h mi = "S4") ∧
    ((h * 60 + mi < 8 * 60 + 30 ∨ 17 * 60 ≤ h * 60 + mi) →
      (h < 12 → getSeanceCodeFromTime h mi = "S1") ∧
      (12 ≤ h → getSeanceCodeFromTime h mi = "S3")) := by
  unfold getSeanceCodeFromTime
  refine ⟨?_, ?_, ?_, ?_, ?_⟩
  · intro ht; split_ifs <;> first | rfl | omega
  · intro ht; split_ifs <;> first | rfl | omega
  · intro ht; split_ifs <;> first | rfl | omega
  · intro ht; split_ifs <;> first | rfl | omega
  · intro ht
    constructor <;> intro hhour <;> split_ifs <;> first | rfl | omega

/-- Closed witness for `c7_slot_code_partition` at 09:15 (inside S1). -/
theorem c7_slot_code_partition_witness :
    9 < 24 ∧ 15 < 60 ∧ getSeanceCodeFromTime 9 15 = "S1" :=
  ⟨by decide, by decide,
    (c7_slot_code_partition 9 15 (by decide) (by decide)).1 (by decide)⟩

/-! Helper lemmas about sums of 0/1 indicator lists. -/

lemma sum_le_length_of_le_one :
    ∀ (l : List Nat), (∀ a ∈ l, a ≤ 1) → l.sum ≤ l.length := by
  intro l
  induction l with
  | nil => intro _; simp
  | cons b t ih =>
    intro h
    have hb : b ≤ 1 := h b (List.mem_cons_self b t)
    have ht := ih (fun a ha => h a (List.mem_cons_of_mem b ha))
    simp only [List.sum_cons, List.length_cons]
    omega

lemma all_one_of_length_le_sum :
    ∀ (l : List Nat), (∀ a ∈ l, a ≤ 1) → l.length ≤ l.sum → ∀ a ∈ l, a = 1 := by
  intro l
  induction l with
  | nil => intro _ _ a ha; exact absurd ha (List.not_mem_nil a)
  | cons b t ih =>
    intro h1 h2 a ha
    have hb : b ≤ 1 := h1 b (List.mem_cons_self b t)
    have htle : t.sum ≤ t.length :=
      sum_le_length_of_le_one t (fun c hc => h1 c (List.mem_cons_of_mem b hc))
    simp only [List.sum_cons, List.length_cons] at h2
    rcases List.mem_cons.mp ha with rfl | hat
    · omega
    · exact ih (fun c hc => h1 c (List.mem_cons_of_mem b hc)) (by omega) a hat

/-- Every constraint emitted for a session carries that session's key. -/
lemma conKey_contrainteSeance (ensLen : Nat) (adaptatif : Bool) (m : Nat)
    (p : SeanceKey × Nat) (c : CoverageCon)
    (hc : c ∈ contrainteSeance ensLen adaptatif m p) : conKey c = p.1 := by
  unfold contrainteSeance at hc
  split_ifs at hc <;> simp only [List.mem_cons, List.not_mem_nil, or_false] at hc
  · subst hc; rfl
  · rcases hc with rfl | rfl <;> rfl
  · subst hc; rfl

/-- C6: in normal mode, every session whose exam count does not exceed the
number of eligible teachers receives the exact coverage constraint
`cover(s) = n_s * m`, so every solution of the emitted constraints assigns
exactly `n_s * m` teachers to it. -/
theorem c6_normal_mode_exact_coverage (configs : List (String × Nat))
    (ens : List Enseignant) (seances : List (SeanceKey × Nat)) (m : Nat)
    (fb : Bool) (hmode : modeAdaptatif configs ens seances m fb = false)
    (p : SeanceKey × Nat) (hp : p ∈ seances) (hle : p.2 ≤ ens.length) :
    CoverageCon.exactly p.1 (p.2 * m) ∈
      contrainteNombreMinimal configs ens seances m fb ∧
    ∀ x, satisfCoverage ens (contrainteNombreMinimal configs ens seances m fb) x →
      coverOf ens x p.1 = p.2 * m := by
  have hmem1 : CoverageCon.exactly p.1 (p.2 * m) ∈
      contrainteSeance ens.length (modeAdaptatif configs ens seances m fb) m p := by
    unfold contrainteSeance
    rw [if_neg (by omega), hmode]
    simp
  have hmem : CoverageCon.exactly p.1 (p.2 * m) ∈
      contrainteNombreMinimal configs ens seances m fb :=
    List.mem_flatMap.mpr ⟨p, hp, hmem1⟩
  exact ⟨hmem, fun x hx => hx _ hmem⟩

/-- Closed witness for `c6_normal_mode_exact_coverage`: two quota-2 teachers,
one session of one exam, m = 2, fallback on; capacity 4 ≥ demand 2 keeps the
batch in normal mode. -/
theorem c6_normal_mode_exact_coverage_witness :
    modeAdaptatif gradeG2 ensDeux [(cle1, 1)] 2 true = false ∧
    (cle1, 1) ∈ [((cle1 : SeanceKey), (1 : Nat))] ∧ 1 ≤ ensDeux.length ∧
    (CoverageCon.exactly cle1 2 ∈
      contrainteNombreMinimal gradeG2 ensDeux [(cle1, 1)] 2 true ∧
    ∀ x, satisfCoverage ensDeux
        (contrainteNombreMinimal gradeG2 ensDeux [(cle1, 1)] 2 true) x →
      coverOf ensDeux x cle1 = 2) :=
  ⟨by decide, by decide, by decide,
    c6_normal_mode_exact_coverage gradeG2 ensDeux [(cle1, 1)] 2 true (by decide)
      (cle1, 1) (by decide) (by decide)⟩

/-- C3 counterexample: two quota-2 teachers (capacity Q = 4), one session of
2 exams with m = 3 (demand D = 6), fallback on, hence adaptive mode and
m_floor = max(1, ⌊(4/6)·3⌋) = 2, so the claim demands the lower bound
2·2 = 4.  The source emits only `cover ≥ nb_examens = 2`: assigning both
teachers (cover = 2) satisfies every emitted constraint yet violates the
claimed bound. -/
theorem c3_counterexample :
    ¬ (∀ x, satisfCoverage ensDeux
          (contrainteNombreMinimal gradeG2 ensDeux [(cle1, 2)] 3 true) x →
        ∀ p ∈ [((cle1 : SeanceKey), (2 : Nat))],
          p.2 * mFloorSpec (quotasTotaux gradeG2 ensDeux)
              (besoinIdeal [(cle1, 2)] 3) 3 ≤ coverOf ensDeux x p.1) := by
  intro h
  have hx := h (fun _ t => decide (t = 1 ∨ t = 2)) (by decide)
    (cle1, 2) (by decide)
  exact absurd hx (by decide)

/-- C3 amended: in adaptive mode, a session with `n_s` exams and
`n_s ≤ |eligible teachers|` receives the bounds
`n_s ≤ cover(s) ≤ n_s · m` — the lower bound is one invigilator per exam,
not the spec's proportional floor `n_s · m_floor`. -/
theorem c3_adaptive_coverage_amended (configs : List (String × Nat))
    (ens : List Enseignant) (seances : List (SeanceKey × Nat)) (m : Nat)
    (fb : Bool) (hmode : modeAdaptatif configs ens seances m fb = true)
    (p : SeanceKey × Nat) (hp : p ∈ seances) (hle : p.2 ≤ ens.length) :
    CoverageCon.atLeast p.1 p.2 ∈
      contrainteNombreMinimal configs ens seances m fb ∧
    CoverageCon.atMost p.1 (p.2 * m) ∈
      contrainteNombreMinimal configs ens seances m fb ∧
    ∀ x, satisfCoverage ens (contrainteNombreMinimal configs ens seances m fb) x →
      p.2 ≤ coverOf ens x p.1 ∧ coverOf ens x p.1 ≤ p.2 * m := by
  have hbranch : contrainteSeance ens.length
      (modeAdaptatif configs ens seances m fb) m p =
      [CoverageCon.atLeast p.1 p.2, CoverageCon.atMost p.1 (p.2 * m)] := by
    unfold contrainteSeance
    rw [if_neg (by omega), hmode]
    simp
  have hlo : CoverageCon.atLeast p.1 p.2 ∈
      contrainteNombreMinimal configs ens seances m fb :=
    List.mem_flatMap.mpr ⟨p, hp, by rw [hbranch]; simp⟩
  have hhi : CoverageCon.atMost p.1 (p.2 * m) ∈
      contrainteNombreMinimal configs ens seances m fb :=
    List.mem_flatMap.mpr ⟨p, hp, by rw [hbranch]; simp⟩
  exact ⟨hlo, hhi, fun x hx => ⟨hx _ hlo, hx _ hhi⟩⟩

/-- Closed witness for `c3_adaptive_coverage_amended`: the same adaptive
batch as the counterexample (Q = 4 < D = 6). -/
theorem c3_adaptive_coverage_amended_witness :
    modeAdaptatif gradeG2 ensDeux [(cle1, 2)] 3 true = true ∧
    (cle1, 2) ∈ [((cle1 : SeanceKey), (2 : Nat))] ∧ 2 ≤ ensDeux.length ∧
    (CoverageCon.atLeast cle1 2 ∈
      contrainteNombreMinimal gradeG2 ensDeux [(cle1, 2)] 3 true ∧
    CoverageCon.atMost cle1 6 ∈
      contrainteNombreMinimal gradeG2 ensDeux [(cle1, 2)] 3 true ∧
    ∀ x, satisfCoverage ensDeux
        (contrainteNombreMinimal gradeG2 ensDeux [(cle1, 2)] 3 true) x →
      2 ≤ coverOf ensDeux x cle1 ∧ coverOf ensDeux x cle1 ≤ 6) :=
  ⟨by decide, by decide, by decide,
    c3_adaptive_coverage_amended gradeG2 ensDeux [(cle1, 2)] 3 true (by decide)
      (cle1, 2) (by decide) (by decide)⟩

/-- C10: a starved session (more exams than eligible teachers) receives
exactly one coverage constraint, the lower bound
`cover(s) ≥ |eligible teachers|` with no upper bound; since that sum ranges
over exactly the session's `|eligible teachers|` booleans, every solution
assigns every eligible teacher to the session. -/
theorem c10_starved_session_all_assigned (configs : List (String × Nat))
    (ens : List Enseignant) (seances : List (SeanceKey × Nat)) (m : Nat)
    (fb : Bool) (hnd : (seances.map Prod.fst).Nodup)
    (p : SeanceKey × Nat) (hp : p ∈ seances) (hgt : ens.length < p.2) :
    CoverageCon.atLeast p.1 ens.length ∈
      contrainteNombreMinimal configs ens seances m fb ∧
    (∀ c ∈ contrainteNombreMinimal configs ens seances m fb,
      conKey c = p.1 → c = CoverageCon.atLeast p.1 ens.length) ∧
    ∀ x, satisfCoverage ens (contrainteNombreMinimal configs ens seances m fb) x →
      ∀ e ∈ ens, x p.1 e.id = true := by
  have hbranch : contrainteSeance ens.length
      (modeAdaptatif configs ens seances m fb) m p =
      [CoverageCon.atLeast p.1 ens.length] := by
    unfold contrainteSeance
    rw [if_pos hgt]
  have hmem : CoverageCon.atLeast p.1 ens.length ∈
      contrainteNombreMinimal configs ens seances m fb :=
    List.mem_flatMap.mpr ⟨p, hp, by rw [hbranch]; simp⟩
  refine ⟨hmem, ?_, ?_⟩
  · intro c hc hkey
    rcases List.mem_flatMap.mp hc with ⟨q, hq, hcq⟩
    have hqk : q.1 = p.1 := by
      have := conKey_contrainteSeance _ _ _ q c hcq
      rw [hkey] at this
      exact this.symm
    have hqp : q = p := List.inj_on_of_nodup_map hnd hq hp hqk
    subst hqp
    rw [hbranch] at hcq
    simpa using hcq
  · intro x hx e he
    have hcov : ens.length ≤ coverOf ens x p.1 := hx _ hmem
    have hall := all_one_of_length_le_sum
      (ens.map (fun e => if x p.1 e.id then 1 else 0))
      (by
        intro a ha
        rcases List.mem_map.mp ha with ⟨e', _, rfl⟩
        split <;> omega)
      (by
        rw [List.length_map]
        exact hcov)
    have hone := hall (if x p.1 e.id then 1 else 0)
      (List.mem_map.mpr ⟨e, he, rfl⟩)
    by_contra hfalse
    rw [Bool.not_eq_true] at hfalse
    rw [hfalse] at hone
    simp at hone

/-- Closed witness for `c10_starved_session_all_assigned`: a session of
3 exams with only the two quota-2 teachers available. -/
theorem c10_starved_session_all_assigned_witness :
    ([((cle1 : SeanceKey), (3 : Nat))].map Prod.fst).Nodup ∧
    (cle1, 3) ∈ [((cle1 : SeanceKey), (3 : Nat))] ∧ ensDeux.length < 3 ∧
    (CoverageCon.atLeast cle1 2 ∈
      contrainteNombreMinimal gradeG2 ensDeux [(cle1, 3)] 2 true ∧
    (∀ c ∈ contrainteNombreMinimal gradeG2 ensDeux [(cle1, 3)] 2 true,
      conKey c = cle1 → c = CoverageCon.atLeast cle1 2) ∧
    ∀ x, satisfCoverage ensDeux
        (contrainteNombreMinimal gradeG2 ensDeux [(cle1, 3)] 2 true) x →
      ∀ e ∈ ensDeux, x cle1 e.id = true) :=
  ⟨by decide, by decide, by decide,
    c10_starved_session_all_assigned gradeG2 ensDeux [(cle1, 3)] 2 true
      (by decide) (cle1, 3) (by decide) (by decide)⟩

/-! Helper: membership through first-occurrence deduplication. -/

lemma mem_firstDedup_foldl {α : Type} [DecidableEq α] :
    ∀ (l acc : List α) (a : α),
      a ∈ l.foldl (fun acc b => if b ∈ acc then acc else acc ++ [b]) acc ↔
        a ∈ acc ∨ a ∈ l := by
  intro l
  induction l with
  | nil => intro acc a; simp
  | cons b t ih =>
    intro acc a
    simp only [List.foldl_cons, List.mem_cons]
    rw [ih]
    by_cases hb : b ∈ acc
    · rw [if_pos hb]
      constructor
      · rintro (h | h)
        · exact Or.inl h
        · exact Or.inr (Or.inr h)
      · rintro (h | rfl | h)
        · exact Or.inl h
        · exact Or.inl hb
        · exact Or.inr h
    · rw [if_neg hb]
      simp only [List.mem_append, List.mem_singleton]
      tauto

lemma mem_firstDedup {α : Type} [DecidableEq α] (l : List α) (a : α) :
    a ∈ firstDedup l ↔ a ∈ l := by
  unfold firstDedup
  rw [mem_firstDedup_foldl]
  simp

/-- C1 counterexample: two quota-2 teachers of grade G, one session of one
exam, m = 1 (normal mode).  The full emitted model forces `cover = 1`, so
some feasible assignment gives one grade-G teacher load 1 and the other
load 0: no hard equality between same-grade loads exists. -/
theorem c1_counterexample :
    ¬ (∀ x, satisfModele gradeG2 ensDeux seancesUnExamen 1 true [] x →
        ∀ e1 ∈ ensDeux, ∀ e2 ∈ ensDeux, e1.grade_code = e2.grade_code →
          chargeOf x (seancesUnExamen.map (fun p => p.1)) e1.id =
          chargeOf x (seancesUnExamen.map (fun p => p.1)) e2.id) := by
  intro h
  have hx := h (fun _ t => decide (t = 1)) (by decide)
    ⟨1, "G", none⟩ (by decide) ⟨2, "G", none⟩ (by decide) rfl
  exact absurd hx (by decide)

/-- C1 amended: `_contrainte_quotas_grades` emits as hard constraints
exactly the per-teacher caps `load(t) ≤ q_grade(t)` (satisfying the emitted
cap list is equivalent to every eligible teacher's load being within their
grade quota), and for every batch where some grade has at least two
eligible teachers, the per-grade dispersion (max − min of that grade's
loads) enters the maximized objective with coefficient −20: intra-grade
equality is encouraged softly, never enforced. -/
theorem c1_amended_caps_and_soft_dispersion (configs : List (String × Nat))
    (ens : List Enseignant) (keys : List SeanceKey)
    (avecVoeu : List (SeanceKey × Nat)) (reg : Bool)
    (x : SeanceKey → Nat → Bool) :
    (satisfQuotasCaps (quotasCaps configs ens) keys x ↔
      ∀ e ∈ ens, chargeOf x keys e.id ≤ quotaOf configs e.grade_code) ∧
    ((dispersionGradesList ens).isEmpty = false →
      (ObjComp.dispGrades, (-20 : Int)) ∈ objectifDuRun ens keys avecVoeu reg) := by
  constructor
  · constructor
    · intro hsat e he
      have hg : e.grade_code ∈ gradesList ens :=
        (mem_firstDedup _ _).mpr (List.mem_map.mpr ⟨e, he, rfl⟩)
      have hmem : (e.id, quotaOf configs e.grade_code) ∈ quotasCaps configs ens :=
        List.mem_flatMap.mpr ⟨e.grade_code, hg,
          List.mem_map.mpr ⟨e, List.mem_filter.mpr ⟨he, by simp⟩, rfl⟩⟩
      exact hsat _ hmem
    · intro hall c hc
      rcases List.mem_flatMap.mp hc with ⟨g, _, hc2⟩
      rcases List.mem_map.mp hc2 with ⟨e, hef, rfl⟩
      rcases List.mem_filter.mp hef with ⟨he, hbeq⟩
      have hge : e.grade_code = g := by simpa using hbeq
      subst hge
      exact hall e he
  · intro hne
    unfold objectifDuRun objectifTermes
    rw [hne]
    split_ifs <;> simp_all

/-- Closed witness for `c1_amended_caps_and_soft_dispersion` on the
two-teacher batch. -/
theorem c1_amended_caps_and_soft_dispersion_witness :
    (dispersionGradesList ensDeux).isEmpty = false ∧
    (ObjComp.dispGrades, (-20 : Int)) ∈ objectifDuRun ensDeux [cle1] [] false ∧
    (satisfQuotasCaps (quotasCaps gradeG2 ensDeux) [cle1]
        (fun _ t => decide (t = 1)) ↔
      ∀ e ∈ ensDeux, chargeOf (fun _ t => decide (t = 1)) [cle1] e.id ≤
        quotaOf gradeG2 e.grade_code) :=
  ⟨by decide,
    (c1_amended_caps_and_soft_dispersion gradeG2 ensDeux [cle1] [] false
      (fun _ t => decide (t = 1))).2 (by decide),
    (c1_amended_caps_and_soft_dispersion gradeG2 ensDeux [cle1] [] false
      (fun _ t => decide (t = 1))).1⟩

/-- C2 at its failing input: one teacher (code "A") who marked
(day 10, S1) as a wish; one session at that very slot; grouping off.
`_contrainte_voeux` puts the pair into `avec_voeu`, the objective attaches
coefficient +10 to it, and the maximized objective value is strictly larger
when the teacher IS assigned to the wished-against slot (50 vs 0): the V3
code rewards the assignment the claim says is penalized. -/
theorem c2_wish_bonus_failing_input :
    contrainteVoeuxAvec voeuxA [cle1] ensUn = [(cle1, 1)] ∧
    objectifDuRun ensUn [cle1] (contrainteVoeuxAvec voeuxA [cle1] ensUn)
        false =
      [(ObjComp.totalAff, 40), (ObjComp.dispGlobal, -30),
        (ObjComp.bonusVoeux, 10)] ∧
    objectifValeur ensUn [cle1] (contrainteVoeuxAvec voeuxA [cle1] ensUn)
        false (fun _ t => decide (t = 1)) = 50 ∧
    objectifValeur ensUn [cle1] (contrainteVoeuxAvec voeuxA [cle1] ensUn)
        false (fun _ _ => false) = 0 := by
  refine ⟨?_, ?_, ?_, ?_⟩ <;> decide

/-- C4 counterexample: the claim would make the quota-utilization term
(Σ loads) absent from every normal-mode objective; but a normal-mode batch
(capacity 4 ≥ demand 2) still gets `(totalAff, 40)` —
`_configurer_fonction_objectif` never sees the mode. -/
theorem c4_counterexample :
    ¬ (∀ (configs : List (String × Nat)) (ens : List Enseignant)
          (seances : List (SeanceKey × Nat)) (m : Nat) (fb : Bool)
          (avecVoeu : List (SeanceKey × Nat)) (reg : Bool),
        modeAdaptatif configs ens seances m fb = false →
        ∀ w : Int, (ObjComp.totalAff, w) ∉
          objectifDuRun ens (seances.map (fun p => p.1)) avecVoeu reg) := by
  intro h
  exact h gradeG2 ensDeux [(cle1, 1)] 2 true [] false (by decide) 40 (by decide)

/-- C4 amended: the quota-utilization term (Σ of all teacher loads) appears
in the objective of every run with at least one eligible teacher, in both
modes, with weight +35 when temporal grouping is enabled and +40 when it is
disabled. -/
theorem c4_amended_total_loads_term_every_mode (ens : List Enseignant)
    (keys : List SeanceKey) (avecVoeu : List (SeanceKey × Nat)) (reg : Bool)
    (hne : ens ≠ []) :
    (ObjComp.totalAff, (if reg then (35 : Int) else 40)) ∈
      objectifDuRun ens keys avecVoeu reg := by
  have h1 : ens.isEmpty = false := by
    cases ens with
    | nil => exact absurd rfl hne
    | cons a t => rfl
  unfold objectifDuRun objectifTermes
  rw [h1]
  split_ifs <;> simp_all

/-- Closed witness for `c4_amended_total_loads_term_every_mode` on the
two-teacher batch with grouping off. -/
theorem c4_amended_total_loads_term_every_mode_witness :
    ensDeux ≠ [] ∧
    (ObjComp.totalAff, (if false then (35 : Int) else 40)) ∈
      objectifDuRun ensDeux [cle1] [] false :=
  ⟨by decide,
    c4_amended_total_loads_term_every_mode ensDeux [cle1] [] false (by decide)⟩

/-- C5 at its failing input: two quota-2 teachers, m = 2, two one-exam
sessions; capacity 4 ≥ demand 4, so the batch is in normal mode — yet
`_contrainte_equilibre_entre_seances` detects `mode_adaptatif_global`
(because `nb_examens < nb_examens * m` holds whenever m ≥ 2) and emits the
large adaptive tolerance 5 instead of the strict normal tolerance
`max(2, ⌊0.05·1⌋) = 2` its own docstring prescribes. -/
theorem c5_normal_mode_gets_adaptive_tolerance :
    modeAdaptatif gradeG2 ensDeux [(cle1, 1), (cle2, 1)] 2 true = false ∧
    contrainteEquilibre [(cle1, 1), (cle2, 1)]
        (besoinsParSeance [(cle1, 1), (cle2, 1)] 2) 2 =
      [⟨cle1, cle2, 5⟩] ∧
    toleranceEquilibre false 1 2 = 2 := by
  refine ⟨by decide, by decide, by decide⟩

/-- C8: for every day index with at least 3 sessions (taken in slot-code
order: the sorted day list decomposes as first f, intermediates mid, last
l) and every eligible teacher, the model contains the constraint
`x[f,t] + x[l,t] ≤ 1 + Σ_{s ∈ mid} x[s,t]`; hence no solution of the
emitted constraints puts a teacher on exactly the first and last session of
such a day with nothing in between.  Days with fewer than 3 sessions
receive no constraint. -/
theorem c8_premiere_derniere_isolees (keys : List SeanceKey)
    (ens : List Enseignant) :
    (∀ j ∈ keys.map (fun k => k.jour_index), ∀ e ∈ ens,
      3 ≤ (keys.filter (fun k => k.jour_index == j)).length →
      ∃ f l mid, triJour keys j = f :: mid ++ [l] ∧
        (⟨f, l, mid, e.id⟩ : IsoCon) ∈ contrainteIsolees keys ens ∧
        ∀ x, satisfIso (contrainteIsolees keys ens) x →
          ¬(x f e.id = true ∧ x l e.id = true ∧
            ∀ k ∈ mid, x k e.id = false)) ∧
    (∀ c ∈ contrainteIsolees keys ens,
      3 ≤ (keys.filter
        (fun k => k.jour_index == c.premiere.jour_index)).length) := by
  constructor
  · intro j hj e he h3
    have hlen : (triJour keys j).length =
        (keys.filter (fun k => k.jour_index == j)).length := by
      simp [triJour]
    obtain ⟨f, rest, htri⟩ : ∃ f rest, triJour keys j = f :: rest := by
      cases h : triJour keys j with
      | nil => rw [h] at hlen; simp at hlen; omega
      | cons f rest => exact ⟨f, rest, rfl⟩
    rcases List.eq_nil_or_concat rest with hr | ⟨mid, l, hr⟩
    · exfalso
      rw [htri, hr] at hlen
      simp at hlen
      omega
    · rw [List.concat_eq_append] at hr
      have hhead : (triJour keys j).headD default = f := by
        rw [htri]; rfl
      have hlast : (triJour keys j).getLastD default = l := by
        rw [htri, hr, ← List.cons_append]
        exact List.getLastD_concat _ _ _
      have hmid : ((triJour keys j).drop 1).dropLast = mid := by
        rw [htri, hr]
        simp
      have hjj : j ∈ joursOf keys := by
        unfold joursOf
        exact (mem_firstDedup _ _).mpr hj
      have hmem : (⟨f, l, mid, e.id⟩ : IsoCon) ∈ contrainteIsolees keys ens := by
        apply List.mem_flatMap.mpr
        refine ⟨j, hjj, ?_⟩
        rw [if_neg (by omega)]
        apply List.mem_map.mpr
        refine ⟨e, he, ?_⟩
        rw [hhead, hlast, hmid]
      refine ⟨f, l, mid, by rw [htri, hr, List.cons_append], hmem, ?_⟩
      rintro x hx ⟨hf, hl, hnomid⟩
      have hcon := hx _ hmem
      unfold isoHolds at hcon
      simp only [hf, hl, if_true] at hcon
      have hzero : (mid.map (fun k => if x k e.id then (1 : Nat) else 0)).sum = 0 := by
        apply List.sum_eq_zero
        intro a ha
        rcases List.mem_map.mp ha with ⟨k, hk, rfl⟩
        rw [hnomid k hk]
        rfl
      rw [hzero] at hcon
      omega
  · intro c hc
    rcases List.mem_flatMap.mp hc with ⟨j, _, hcj⟩
    by_cases hlt : (keys.filter (fun k => k.jour_index == j)).length < 3
    · rw [if_pos hlt] at hcj
      exact absurd hcj (List.not_mem_nil c)
    · rw [if_neg hlt] at hcj
      rcases List.mem_map.mp hcj with ⟨e, _, rfl⟩
      have hlen : (triJour keys j).length =
          (keys.filter (fun k => k.jour_index == j)).length := by
        simp [triJour]
      obtain ⟨f, rest, htri⟩ : ∃ f rest, triJour keys j = f :: rest := by
        cases h : triJour keys j with
        | nil => rw [h] at hlen; simp at hlen; omega
        | cons f rest => exact ⟨f, rest, rfl⟩
      have hfmem : f ∈ keys.filter (fun k => k.jour_index == j) := by
        have hf : f ∈ triJour keys j := by
          rw [htri]; exact List.mem_cons_self _ _
        unfold triJour at hf
        exact List.mem_mergeSort.mp hf
      have hfj : f.jour_index = j := by
        have := (List.mem_filter.mp hfmem).2
        simpa using this
      simp only [htri, List.headD_cons]
      rw [hfj]
      omega

/-- Closed witness for `c8_premiere_derniere_isolees`: a day with three
sessions (S1, S2, S3) and the first of the two teachers. -/
theorem c8_premiere_derniere_isolees_witness :
    1 ∈ [cle1, cle2, cle3].map (fun k => k.jour_index) ∧
    (⟨1, "G", none⟩ : Enseignant) ∈ ensDeux ∧
    3 ≤ ([cle1, cle2, cle3].filter (fun k => k.jour_index == 1)).length ∧
    (∃ f l mid, triJour [cle1, cle2, cle3] 1 = f :: mid ++ [l] ∧
      (⟨f, l, mid, 1⟩ : IsoCon) ∈ contrainteIsolees [cle1, cle2, cle3] ensDeux ∧
      ∀ x, satisfIso (contrainteIsolees [cle1, cle2, cle3] ensDeux) x →
        ¬(x f 1 = true ∧ x l 1 = true ∧ ∀ k ∈ mid, x k 1 = false)) :=
  ⟨by decide, by decide, by decide,
    (c8_premiere_derniere_isolees [cle1, cle2, cle3] ensDeux).1
      1 (by decide) ⟨1, "G", none⟩ (by decide) (by decide)⟩

/-- Grouping a nonempty exam list yields at least one session. -/
lemma grouperExamensParSeance_ne_nil (examens : List Examen)
    (hne : examens ≠ []) : grouperExamensParSeance examens ≠ [] := by
  intro h
  unfold grouperExamensParSeance at h
  have h2 : clesTriees examens = [] := by
    cases hct : clesTriees examens with
    | nil => rfl
    | cons a t => rw [hct] at h; simp at h
  cases examens with
  | nil => exact hne rfl
  | cons e t =>
    have hmem : cleBrute e ∈ clesBrutes (e :: t) := by
      unfold clesBrutes
      exact (mem_firstDedup _ _).mpr
        (List.mem_map.mpr ⟨e, List.mem_cons_self _ _, rfl⟩)
    have hmem2 : cleBrute e ∈ clesTriees (e :: t) := by
      unfold clesTriees
      exact List.mem_mergeSort.mpr hmem
    rw [h2] at hmem2
    exact absurd hmem2 (List.not_mem_nil _)

/-- C9: every run that passes the empty-input checks first deletes all
existing assignments and commits that deletion (the first event of the
trace, before constraint building); a run whose solve ends in neither
OPTIMAL nor FEASIBLE returns failure while the assignment store is already
empty — the prior contents of the store (arbitrary `db`) are not
restored. -/
theorem c9_delete_commit_then_fail_no_restore (ens : List Enseignant)
    (examens : List Examen) (statut : SolverStatus)
    (respMap : List (Nat × Nat)) (x : SeanceKey → Nat → Bool) (db : DBState)
    (hens : ens ≠ []) (hex : examens ≠ [])
    (hopt : statut ≠ SolverStatus.optimal)
    (hfea : statut ≠ SolverStatus.feasible) :
    genererPlanning ens examens statut respMap x db =
      (false, ⟨[]⟩,
        [RunEvent.suppressionCommit, RunEvent.contraintesConstruites,
          RunEvent.resolutionSolveur]) := by
  have h1 : ens.isEmpty = false := by
    cases ens with
    | nil => exact absurd rfl hens
    | cons a t => rfl
  have h2 : examens.isEmpty = false := by
    cases examens with
    | nil => exact absurd rfl hex
    | cons a t => rfl
  have h3 : (grouperExamensParSeance examens).isEmpty = false := by
    cases hg : grouperExamensParSeance examens with
    | nil => exact absurd hg (grouperExamensParSeance_ne_nil examens hex)
    | cons a t => rfl
  unfold genererPlanning
  rw [h1, h2, h3]
  simp only [Bool.false_eq_true, if_false]
  rw [if_neg ?hstat]
  case hstat =>
    rintro (h | h)
    · exact hopt h
    · exact hfea h

/-- Closed witness for `c9_delete_commit_then_fail_no_restore`: an
INFEASIBLE solve on a nonempty batch with a nonempty prior store. -/
theorem c9_delete_commit_then_fail_no_restore_witness :
    ensDeux ≠ [] ∧
    ([⟨1, 10, (9, 0), "SEM1", "P", none⟩] : List Examen) ≠ [] ∧
    SolverStatus.infeasible ≠ SolverStatus.optimal ∧
    SolverStatus.infeasible ≠ SolverStatus.feasible ∧
    genererPlanning ensDeux [⟨1, 10, (9, 0), "SEM1", "P", none⟩]
        SolverStatus.infeasible [] (fun _ _ => false) ⟨[⟨5, 7, false⟩]⟩ =
      (false, ⟨[]⟩,
        [RunEvent.suppressionCommit, RunEvent.contraintesConstruites,
          RunEvent.resolutionSolveur]) :=
  ⟨by decide, by decide, by decide, by decide,
    c9_delete_commit_then_fail_no_restore ensDeux
      [⟨1, 10, (9, 0), "SEM1", "P", none⟩] SolverStatus.infeasible []
      (fun _ _ => false) ⟨[⟨5, 7, false⟩]⟩ (by decide) (by decide)
      (by decide) (by decide)⟩

end SurvV3
